import Mathlib

/-!
Verification of the grounding/evidence-retrieval pipeline of the
certification-exam tutor repository, shallowly embedded from
`src/agents/grounding_verifier.py`, `src/orchestration/tool_policy.py`,
`src/orchestration/cache.py` and `src/models/schemas.py`.

Python strings are modelled as Lean `String`; Python runtime values that may
be non-strings are modelled by `PyVal`; JSON-like tool payloads by `JVal`;
raised exceptions by `Except String`.  The external Foundry runner (the
"external actor") is modelled by the `Actor` structure whose fields give the
deterministic per-call behaviour of its duck-typed methods.  Observable
side effects (discovery calls, tool invocations, per-query search log
events) are collected in a `TDelta` trace, mirroring the structured log
events the source emits.
-/

namespace Grounding

/-- Python whitespace characters recognised by `str.split()` with no
arguments (space, tab, newline, carriage return, vertical tab, form feed). -/
def pyWsChar (c : Char) : Bool :=
  c = ' ' || c = '\t' || c = '\n' || c = '\r' || c = Char.ofNat 11 || c = Char.ofNat 12

/-- Split a character list on runs of Python whitespace, dropping empties,
as Python `str.split()` does. -/
def splitWsAux : List Char → List Char → List (List Char)
  | [], acc => if acc.isEmpty then [] else [acc.reverse]
  | c :: cs, acc =>
    if pyWsChar c then
      if acc.isEmpty then splitWsAux cs [] else acc.reverse :: splitWsAux cs []
    else splitWsAux cs (c :: acc)

/-- Python `s.split()`: the whitespace-separated words of a string. -/
def pyWords (s : String) : List String :=
  (splitWsAux s.data []).map String.mk

/-- Python `" ".join(s.split())`: whitespace normalisation. -/
def normWs (s : String) : String :=
  String.intercalate " " (pyWords s)

/-- Python `s.strip()`: remove leading and trailing whitespace. -/
def pyStrip (s : String) : String :=
  String.mk (((s.data.dropWhile pyWsChar).reverse.dropWhile pyWsChar).reverse)

/-- ASCII lower-casing of one character; the strings handled by the pipeline
are ASCII, matching Python `str.lower()` on them. -/
def lowerChar (c : Char) : Char :=
  if 'A' ≤ c && c ≤ 'Z' then Char.ofNat (c.toNat + 32) else c

/-- Python `s.lower()` restricted to ASCII strings. -/
def lowerStr (s : String) : String :=
  String.mk (s.data.map lowerChar)

/-- Substring occurrence on character lists, for Python `pat in s`. -/
def subOccursChars (hay pat : List Char) : Bool :=
  if pat.isPrefixOf hay then true
  else
    match hay with
    | [] => false
    | _ :: t => subOccursChars t pat

/-- Python `pat in s` for strings. -/
def containsSub (s pat : String) : Bool :=
  subOccursChars s.data pat.data

/-- Python `s.rstrip("/")`: drop trailing slashes. -/
def rstripSlash (s : String) : String :=
  String.mk (s.data.reverse.dropWhile (fun c => c = '/')).reverse

/-- Embeds `_trim_words` of grounding_verifier.py: keep the first
`maxWords` whitespace-separated words. -/
def trim_words (text : String) (maxWords : Nat) : String :=
  String.intercalate " " ((pyWords text).take maxWords)

/-- Embeds `_to_snippet` of grounding_verifier.py: replace newlines with
spaces, normalise whitespace, and truncate to 20 words. -/
def to_snippet (text : String) : String :=
  let replaced := String.mk (text.data.map fun c => if c = '\n' then ' ' else c)
  let clean := normWs replaced
  if clean = "" then "" else trim_words clean 20

-- ── Tool policy (tool_policy.py) ─────────────────────────────────────

/-- A Python runtime value passed where a tool name is expected; the policy
functions receive arbitrary values, not just strings. -/
inductive PyVal where
  | pynone
  | pyint (n : Int)
  | pystr (s : String)
  | pylist (xs : List PyVal)
  | pydict (kvs : List (String × PyVal))

/-- The allow-list `ALLOWED_MCP_TOOLS` of tool_policy.py. -/
def ALLOWED_MCP_TOOLS : List String :=
  ["microsoft_docs_search", "microsoft_docs_fetch", "microsoft_code_sample_search"]

/-- The regular expression `^[a-z0-9_]{1,64}$` of tool_policy.py as a
decidable check. -/
def toolNameCharOk (c : Char) : Bool :=
  ('a' ≤ c && c ≤ 'z') || ('0' ≤ c && c ≤ '9') || c = '_'

/-- Match of the whole name against `^[a-z0-9_]{1,64}$`. -/
def toolNameMatches (s : String) : Bool :=
  decide (1 ≤ s.data.length) && decide (s.data.length ≤ 64) && s.data.all toolNameCharOk

/-- Embeds `_normalize_tool_name`: Python raises `AttributeError` when the
argument is not a string, because `.split()` is attribute-looked-up on it. -/
def normalize_tool_name : PyVal → Except String String
  | .pystr s => .ok (lowerStr (normWs s))
  | _ => .error "AttributeError: object has no attribute split"

/-- Embeds `_is_normalized_tool_allowed` of tool_policy.py. -/
def is_normalized_tool_allowed (normalized : String) : Bool :=
  if !toolNameMatches normalized then false
  else ALLOWED_MCP_TOOLS.contains normalized

/-- Embeds `is_tool_allowed` of tool_policy.py on arbitrary Python values;
the `Except` layer records the uncaught `AttributeError` on non-strings. -/
def is_tool_allowed (v : PyVal) : Except String Bool := do
  let n ← normalize_tool_name v
  pure (is_normalized_tool_allowed n)

/-- Embeds `approval_handler` of tool_policy.py. -/
def approval_handler (v : PyVal) : Except String (Bool × String) := do
  let n ← normalize_tool_name v
  if is_normalized_tool_allowed n then
    pure (true, "auto-approved (read-only allowlist)")
  else
    pure (false, "Tool " ++ n ++ " is not in the allowlist")

/-- The string specialisation of `is_tool_allowed` used by the gateway,
where the tool name is a Lean-level string constant. -/
def isToolAllowedS (s : String) : Bool :=
  is_normalized_tool_allowed (lowerStr (normWs s))

-- ── Evidence cache (cache.py) ────────────────────────────────────────

/-- The backing store of cache.py (the JSON object persisted to disk or
blob storage by `_load`/`_save`) modelled as an association list with the
update-in-place semantics of a Python dict. -/
abbrev Cache : Type := List (String × String)

/-- The empty backing store. -/
def Cache.empty : Cache := []

/-- Embeds `cache_get` of cache.py: `_load().get(url)`. -/
def cache_get (st : Cache) (url : String) : Option String :=
  match st with
  | [] => none
  | (k, v) :: rest => if k = url then some v else cache_get rest url

/-- Embeds `cache_put` of cache.py: load the store, set `data[url]`, save. -/
def cache_put (st : Cache) (url content : String) : Cache :=
  match st with
  | [] => [(url, content)]
  | (k, v) :: rest =>
    if k = url then (k, content) :: rest else (k, v) :: cache_put rest url content

-- ── URL parsing and citation schema (schemas.py) ─────────────────────

/-- Split a character list at the first occurrence of `c`, excluding it. -/
def splitFirstChar : List Char → Char → Option (List Char × List Char)
  | [], _ => none
  | x :: xs, c =>
    if x = c then some ([], xs)
    else
      match splitFirstChar xs c with
      | none => none
      | some (a, b) => some (x :: a, b)

/-- Whether a candidate scheme matches the `urlparse` scheme grammar
(letter followed by letters, digits, plus, dot or minus). -/
def schemeChars : List Char → Bool
  | [] => false
  | c :: rest =>
    c.isAlpha && rest.all fun x => x.isAlpha || x.isDigit || x = '+' || x = '.' || x = '-'

/-- Characters that end the network-location component in `urlparse`. -/
def netlocEnd (c : Char) : Bool :=
  c = '/' || c = '?' || c = '#'

/-- Network location of a string that starts with two slashes. -/
def netlocOf (cs : List Char) : List Char :=
  (cs.drop 2).takeWhile fun c => !netlocEnd c

/-- Modelled from the Python standard library `urllib.parse.urlparse` as
used by `Citation._validate_learn_url`: returns the (lower-cased) scheme
and the network location.  A string with a valid scheme followed by
`://host...` yields that scheme and host; otherwise the scheme or netloc
is empty, exactly the cases the validator rejects. -/
def parseUrl (u : String) : String × String :=
  match splitFirstChar u.data ':' with
  | some (sc, rest) =>
    if schemeChars sc then
      if (['/', '/']).isPrefixOf rest then (String.mk (sc.map lowerChar), String.mk (netlocOf rest))
      else (String.mk (sc.map lowerChar), "")
    else
      if u.data.take 2 = ['/', '/'] then ("", String.mk (netlocOf u.data)) else ("", "")
  | none =>
    if u.data.take 2 = ['/', '/'] then ("", String.mk (netlocOf u.data)) else ("", "")

/-- Python `s.endswith(pat)`. -/
def endsWithStr (s pat : String) : Bool :=
  pat.data.isSuffixOf s.data

/-- A grounded citation record (schemas.py `Citation`), with the field
values as constructed; validity is checked by `mkCitation`. -/
structure Citation where
  title : String
  url : String
  snippet : String
deriving DecidableEq, Repr

/-- Embeds `Citation._validate_learn_url`: https scheme, non-empty host,
host equal to or a subdomain of learn.microsoft.com. -/
def validLearnUrl (value : String) : Bool :=
  let (scheme, netloc) := parseUrl value
  let host := lowerStr netloc
  if scheme ≠ "https" || host = "" then false
  else if host ≠ "learn.microsoft.com" && !endsWithStr host ".learn.microsoft.com" then false
  else true

/-- Embeds `Citation._validate_snippet_words`: non-empty, at most 20 words. -/
def validSnippetWords (value : String) : Bool :=
  let words := pyWords value
  !words.isEmpty && decide (words.length ≤ 20)

/-- Pydantic construction of a `Citation`: field validators run and raise
`ValidationError` (modelled as `Except.error`) on violation. -/
def mkCitation (title url snippet : String) : Except String Citation :=
  if !validLearnUrl url then .error "ValidationError: Citation URL must use learn.microsoft.com over https"
  else if !validSnippetWords snippet then .error "ValidationError: Citation snippet must be non-empty and 20 words or fewer"
  else .ok ⟨title, url, snippet⟩

/-- The output contract of the core (schemas.py `GroundedExplanation`). -/
structure GroundedExplanation where
  question_id : String
  explanation : String
  citations : List Citation
deriving DecidableEq, Repr

/-- Schema validity of a grounded explanation: non-empty citations, every
citation passing the field validators. -/
def groundedExplanationValid (g : GroundedExplanation) : Bool :=
  !g.citations.isEmpty &&
    g.citations.all fun c => validLearnUrl c.url && validSnippetWords c.snippet

/-- A quiz question (schemas.py `Question`). -/
structure Question where
  id : String
  domain : String
  stem : String
  choices : List String
  answer_key : Nat
  rationale_draft : String
deriving DecidableEq, Repr

/-- Well-formedness enforced by the pydantic validators on `Question`:
2 to 6 choices and an answer key indexing into them. -/
def questionWellFormed (q : Question) : Bool :=
  decide (2 ≤ q.choices.length) && decide (q.choices.length ≤ 6) &&
    decide (q.answer_key < q.choices.length)

/-- A diagnosis record (schemas.py `DiagnosisResult`); the misconception
taxonomy membership is not needed by the grounding pipeline. -/
structure DiagnosisResult where
  id : String
  correct : Bool
  misconception_id : Option String
  why : String
  confidence : Rat
deriving DecidableEq, Repr

-- ── JSON-like tool payloads and hit extraction ───────────────────────

/-- JSON-like values returned by the duck-typed external actor. -/
inductive JVal where
  | jnull
  | jbool (b : Bool)
  | jnum (n : Int)
  | jstr (s : String)
  | jarr (xs : List JVal)
  | jobj (kvs : List (String × JVal))

/-- Python `d.get(k)` on an object node (keys unique in a Python dict). -/
def jget : List (String × JVal) → String → Option JVal
  | [], _ => none
  | (k, v) :: rest, key => if k = key then some v else jget rest key

mutual
/-- Embeds `_iter_dicts`: all nested dict nodes of a JSON-like structure,
the node itself first, then its values in order. -/
def iterDicts : JVal → List (List (String × JVal))
  | .jobj kvs => kvs :: iterDictsEntries kvs
  | .jarr xs => iterDictsList xs
  | _ => []

/-- Dict nodes below a list of object entries. -/
def iterDictsEntries : List (String × JVal) → List (List (String × JVal))
  | [] => []
  | (_, v) :: rest => iterDicts v ++ iterDictsEntries rest

/-- Dict nodes below a list of values. -/
def iterDictsList : List JVal → List (List (String × JVal))
  | [] => []
  | v :: rest => iterDicts v ++ iterDictsList rest
end

/-- Embeds `_first_text`: the first key whose value is a non-blank string,
stripped. -/
def first_text (d : List (String × JVal)) : List String → Option String
  | [] => none
  | k :: ks =>
    match jget d k with
    | some (.jstr v) => if pyStrip v ≠ "" then some (pyStrip v) else first_text d ks
    | _ => first_text d ks

/-- A raw search hit record `{title, url, snippet}`. -/
structure Hit where
  title : String
  url : String
  snippet : String
deriving DecidableEq, Repr

/-- Key tables of `_extract_search_hits`. -/
def urlKeys : List String := ["url", "link", "document_url", "source_url", "web_url", "href"]

/-- Title keys of `_extract_search_hits`. -/
def titleKeys : List String := ["title", "name", "document_title", "page_title"]

/-- Snippet keys of `_extract_search_hits`. -/
def snippetKeys : List String := ["snippet", "summary", "description", "excerpt", "text"]

/-- Content keys of `_extract_fetched_content`. -/
def contentKeys : List String := ["content", "text", "body", "markdown", "document", "page_content"]

/-- The per-payload accumulation loop of `_extract_search_hits`, with the
`seen` URL set threaded through. -/
def extractHitsLoop : List (List (String × JVal)) → List String → List Hit
  | [], _ => []
  | node :: rest, seen =>
    match first_text node urlKeys with
    | none => extractHitsLoop rest seen
    | some url =>
      if !containsSub (lowerStr url) "learn.microsoft.com" then extractHitsLoop rest seen
      else if seen.contains url then extractHitsLoop rest seen
      else
        { title := (first_text node titleKeys).getD "Microsoft Learn"
          url := url
          snippet := to_snippet ((first_text node snippetKeys).getD "") } ::
          extractHitsLoop rest (url :: seen)

/-- Embeds `_extract_search_hits`: `{title, url, snippet}` records from a
varied tool payload, keeping only learn.microsoft.com URLs, de-duplicated. -/
def extract_search_hits (payload : JVal) : List Hit :=
  extractHitsLoop (iterDicts payload) []

/-- Embeds `_extract_fetched_content`: the longest non-empty content-bearing
text found anywhere in the payload (Python `max(candidates, key=len)`
returns the first maximal candidate). -/
def extract_fetched_content (payload : JVal) : String :=
  let candidates := (iterDicts payload).filterMap fun node => first_text node contentKeys
  match candidates with
  | [] => ""
  | c :: cs => cs.foldl (fun best x => if best.data.length < x.data.length then x else best) c

/-- Embeds `_merge_hits`: concatenate hit groups, skipping empty URLs and
de-duplicating by URL, first occurrence wins. -/
def mergeHitsLoop : List Hit → List String → List Hit
  | [], _ => []
  | hit :: rest, seen =>
    if hit.url = "" || seen.contains hit.url then mergeHitsLoop rest seen
    else hit :: mergeHitsLoop rest (hit.url :: seen)

/-- Binary form of `_merge_hits` as the source applies it. -/
def merge_hits (a b : List Hit) : List Hit :=
  mergeHitsLoop (a ++ b) []

-- ── Queries, fallback policy, offline stub (grounding_verifier.py) ───

/-- The substitution of `_CHOICE_PREFIX.sub("", clean)` for the pattern
matching a leading `A)`–`F)` label followed by whitespace. -/
def stripChoiceLabel (s : String) : String :=
  match s.data with
  | c :: ')' :: rest =>
    if 'A' ≤ c && c ≤ 'F' then String.mk (rest.dropWhile pyWsChar) else s
  | _ => s

/-- Embeds `_choice_text`: the normalised choice text at an index, with the
choice-letter label stripped, or `"Unknown"`. -/
def choice_text (q : Question) (index : Nat) : String :=
  if index ≥ q.choices.length then "Unknown"
  else
    let clean := pyStrip (normWs (q.choices.getD index ""))
    let clean := pyStrip (stripChoiceLabel clean)
    if clean = "" then "Unknown" else clean

/-- Embeds `_choice_ref`: letter label plus choice text. -/
def choice_ref (q : Question) (index : Nat) : String :=
  String.mk [Char.ofNat ('A'.toNat + index)] ++ ") " ++ choice_text q index

/-- The case-insensitive de-duplication loop of `_build_search_queries`. -/
def dedupQueriesLoop : List String → List String → List String
  | [], _ => []
  | query :: rest, seen =>
    let key := pyStrip (lowerStr query)
    if key = "" || seen.contains key then dedupQueriesLoop rest seen
    else query :: dedupQueriesLoop rest (key :: seen)

/-- Embeds `_build_search_queries`: up to four queries built from the
domain, stem, correct choice and misconception, de-duplicated
case-insensitively. -/
def build_search_queries (q : Question) (diag : Option DiagnosisResult) : List String :=
  let stem := normWs q.stem
  let correctChoice := choice_text q q.answer_key
  let queries :=
    ["AZ-900 " ++ q.domain ++ " " ++ stem,
     "AZ-900 " ++ q.domain ++ " " ++ correctChoice,
     "Microsoft Learn " ++ correctChoice ++ " Azure"] ++
    (match diag with
     | some d =>
       match d.misconception_id with
       | some m => ["AZ-900 " ++ q.domain ++ " " ++ m]
       | none => []
     | none => [])
  dedupQueriesLoop queries []

/-- The module-level stub citations of grounding_verifier.py, validated by
pydantic when the module loads. -/
def STUB_CITATIONS : List Citation :=
  [{ title := "Shared responsibility in the cloud"
     url := "https://learn.microsoft.com/en-us/azure/security/fundamentals/shared-responsibility"
     snippet := "Responsibilities vary by service type: SaaS, PaaS, IaaS." },
   { title := "Azure regions and availability zones"
     url := "https://learn.microsoft.com/en-us/azure/reliability/availability-zones-overview"
     snippet := "Availability Zones are unique physical locations within a region." },
   { title := "What is Microsoft Entra ID?"
     url := "https://learn.microsoft.com/en-us/entra/fundamentals/whatis"
     snippet := "Cloud-based identity and access management service." }]

/-- Embeds `_DOMAIN_FALLBACK_CITATIONS`, the per-domain fallback table. -/
def DOMAIN_FALLBACK_CITATIONS (domain : String) : Option Citation :=
  if domain = "Cloud Concepts" then STUB_CITATIONS.get? 0
  else if domain = "Azure Architecture" then STUB_CITATIONS.get? 1
  else if domain = "Security" then STUB_CITATIONS.get? 2
  else if domain = "Identity" then
    some { title := "What is Microsoft Entra ID?"
           url := "https://learn.microsoft.com/en-us/entra/fundamentals/whatis"
           snippet := "Entra ID provides identity and access management for Azure resources." }
  else if domain = "Azure Services" then
    some { title := "Overview of Azure App Service"
           url := "https://learn.microsoft.com/en-us/azure/app-service/overview"
           snippet := "Azure App Service hosts web apps and APIs as a managed platform." }
  else if domain = "Governance" then
    some { title := "What is Azure Policy?"
           url := "https://learn.microsoft.com/en-us/azure/governance/policy/overview"
           snippet := "Azure Policy enforces standards and assesses compliance across resources." }
  else if domain = "Cost Management" then
    some { title := "Cost Management + Billing documentation"
           url := "https://learn.microsoft.com/en-us/azure/cost-management-billing/"
           snippet := "Use cost analysis and budgets to monitor and optimize Azure spend." }
  else none

/-- Embeds `_build_placeholder_citation`. -/
def build_placeholder_citation : Citation :=
  { title := "Microsoft Learn"
    url := "https://learn.microsoft.com/"
    snippet := "No matching Microsoft Learn evidence retrieved yet." }

/-- Embeds `_is_placeholder_citation`: documentation-root URL or the
literal no-evidence snippet. -/
def is_placeholder_citation (c : Citation) : Bool :=
  if rstripSlash c.url = "https://learn.microsoft.com" then true
  else containsSub (lowerStr c.snippet) "no matching microsoft learn evidence retrieved yet"

/-- Embeds `_fallback_citations`: up to two non-placeholder evidence
citations, else the per-domain table entry, else the generic placeholder. -/
def fallback_citations (q : Question) (evidence : List Citation) : List Citation :=
  let realEvidence := evidence.filter fun c => !is_placeholder_citation c
  if !realEvidence.isEmpty then realEvidence.take 2
  else
    match DOMAIN_FALLBACK_CITATIONS q.domain with
    | some c => [c]
    | none => [build_placeholder_citation]

/-- Python `s.endswith((".", "!", "?"))`. -/
def endsWithSentenceStop (s : String) : Bool :=
  endsWithStr s "." || endsWithStr s "!" || endsWithStr s "?"

/-- Embeds `_deterministic_explanation`: the rationale sentence with the
correct choice reference and optional focus-area clause. -/
def deterministic_explanation (q : Question) (diag : Option DiagnosisResult) : String :=
  let correct := choice_ref q q.answer_key
  let rationale := pyStrip (normWs q.rationale_draft)
  let rationale :=
    if rationale = "" then
      "Review this AZ-900 concept and why this option best fits the service model."
    else rationale
  let rationale := if !endsWithSentenceStop rationale then rationale ++ "." else rationale
  match diag with
  | some d =>
    match d.misconception_id with
    | some m => "Correct answer: " ++ correct ++ ". " ++ rationale ++ " Focus area: " ++ m ++ "."
    | none => "Correct answer: " ++ correct ++ ". " ++ rationale
  | none => "Correct answer: " ++ correct ++ ". " ++ rationale

/-- The literal insufficiency-marker explanation of the fallback path. -/
def insufficiencyText : String :=
  "Insufficient evidence — please narrow your query."

/-- Embeds `_fallback_ground`: deterministic, total fallback output, with
the insufficiency override when only the generic placeholder is available. -/
def fallback_ground (q : Question) (evidence : List Citation)
    (diag : Option DiagnosisResult) : GroundedExplanation :=
  let citations := fallback_citations q evidence
  let placeholderOnly :=
    decide (citations.length = 1) &&
      rstripSlash (citations.headD build_placeholder_citation).url = "https://learn.microsoft.com"
  let explanation :=
    if placeholderOnly then insufficiencyText else deterministic_explanation q diag
  { question_id := q.id, explanation := explanation, citations := citations }

/-- Embeds `_offline_ground`: stub output for offline mode. -/
def offline_ground (q : Question) (diag : Option DiagnosisResult) : GroundedExplanation :=
  { question_id := q.id
    explanation := deterministic_explanation q diag
    citations := fallback_citations q [] }

/-- Embeds `_is_low_signal_explanation`: whitespace-normalised text shorter
than 30 characters, or starting (case-insensitively) with the literal
insufficiency marker. -/
def is_low_signal_explanation (text : String) : Bool :=
  let clean := pyStrip (normWs text)
  if clean.data.length < 30 then true
  else ("insufficient evidence".data).isPrefixOf (lowerStr clean).data

-- ── Tool capability gateway and orchestrator ─────────────────────────

/-- One actual invocation of the external actor's `run_mcp_tool` method
(policy-denied attempts never reach the actor and are not recorded). -/
structure InvokeCall where
  tool : String
  args : List (String × JVal)

/-- Observable trace of one grounding call: number of `list_mcp_tools`
calls, the tool invocations issued to the actor, and the per-query search
log events the source emits. -/
structure TDelta where
  discoveries : Nat
  invokes : List InvokeCall
  searchLogs : List (String × String)

/-- The empty trace. -/
def TDelta.empty : TDelta := ⟨0, [], []⟩

/-- Trace concatenation. -/
def TDelta.append (a b : TDelta) : TDelta :=
  ⟨a.discoveries + b.discoveries, a.invokes ++ b.invokes, a.searchLogs ++ b.searchLogs⟩

/-- The external Foundry runner, duck-typed: `hasRunTool` and
`hasListTools` model whether the corresponding attributes are callable;
`listToolsResult` is the outcome of one `list_mcp_tools()` call (an error
models a raised exception); `runTool` gives the outcome of
`run_mcp_tool(name, arguments)`; `modelParsed` is the composite outcome of
the single model call followed by `extract_json` — an error models a model
exception or unparseable output, `ok v` an extracted JSON value. -/
structure Actor where
  hasRunTool : Bool
  hasListTools : Bool
  listToolsResult : Except String JVal
  runTool : String → List (String × JVal) → Except String JVal
  modelParsed : Except String JVal

/-- The Python set comprehension of `_discover_tool_names`: stripped,
non-blank string members, de-duplicated. -/
def toolSetLoop : List JVal → List String → List String
  | [], acc => acc.reverse
  | x :: rest, acc =>
    match x with
    | .jstr s =>
      let t := pyStrip s
      if t ≠ "" && !acc.contains t then toolSetLoop rest (t :: acc)
      else toolSetLoop rest acc
    | _ => toolSetLoop rest acc

/-- Embeds `_discover_tool_names`: `none` when the method is missing,
raises, or returns a non-list; otherwise the set of discovered names. -/
def discover_tool_names (a : Actor) : Option (List String) × TDelta :=
  if !a.hasListTools then (none, TDelta.empty)
  else
    let d : TDelta := ⟨1, [], []⟩
    match a.listToolsResult with
    | .error _ => (none, d)
    | .ok (.jarr xs) => (some (toolSetLoop xs []), d)
    | .ok _ => (none, d)

/-- The string case of `approval_handler`, as called by the gateway. -/
def approvalS (s : String) : Bool × String :=
  let n := lowerStr (normWs s)
  if is_normalized_tool_allowed n then (true, "auto-approved (read-only allowlist)")
  else (false, "Tool " ++ n ++ " is not in the allowlist")

/-- Dict-or-wrap step at the end of `_run_mcp_tool`. -/
def wrapResult : JVal → JVal
  | .jobj kvs => .jobj kvs
  | v => .jobj [("result", v)]

/-- Embeds `_run_mcp_tool`: policy check, approval check, capability
check, then one actual invocation of the actor. -/
def run_mcp_tool (a : Actor) (tool : String) (args : List (String × JVal)) :
    Except String JVal × TDelta :=
  if !isToolAllowedS tool then (.error ("MCP tool denied by policy: " ++ tool), TDelta.empty)
  else if !(approvalS tool).1 then
    (.error ("MCP tool denied by approval handler: " ++ (approvalS tool).2), TDelta.empty)
  else if !a.hasRunTool then (.error "Foundry runner has no MCP tool capability", TDelta.empty)
  else
    let d : TDelta := ⟨0, [⟨tool, args⟩], []⟩
    match a.runTool tool args with
    | .error e => (.error e, d)
    | .ok v => (.ok (wrapResult v), d)

/-- The attempt loop shared by `_run_search_tool` and `_run_fetch_tool`:
try argument shapes in order, accept the first that does not raise. -/
def tryAttempts (a : Actor) (tool : String) :
    List (List (String × JVal)) → TDelta → Option JVal × TDelta
  | [], d => (none, d)
  | args :: rest, d =>
    match (run_mcp_tool a tool args).1 with
    | .ok v => (some v, d.append (run_mcp_tool a tool args).2)
    | .error _ => tryAttempts a tool rest (d.append (run_mcp_tool a tool args).2)

/-- Embeds `_tool_available`: optimistic when discovery is unavailable. -/
def tool_available (tool : String) (disc : Option (List String)) : Bool :=
  match disc with
  | none => true
  | some s => s.contains tool

/-- The argument shapes tried by `_run_search_tool`. -/
def searchAttemptShapes (query : String) (topK : Int) : List (List (String × JVal)) :=
  [[("query", .jstr query), ("top_k", .jnum topK)],
   [("query", .jstr query)],
   [("q", .jstr query)]]

/-- Embeds `_run_search_tool`. -/
def run_search_tool (a : Actor) (tool query : String) (topK : Int)
    (disc : Option (List String)) : Option JVal × TDelta :=
  if !tool_available tool disc then (none, TDelta.empty)
  else tryAttempts a tool (searchAttemptShapes query topK) TDelta.empty

/-- Embeds `_run_fetch_tool`. -/
def run_fetch_tool (a : Actor) (url : String) (disc : Option (List String)) :
    Option JVal × TDelta :=
  if !tool_available "microsoft_docs_fetch" disc then (none, TDelta.empty)
  else tryAttempts a "microsoft_docs_fetch" [[("url", .jstr url)], [("uri", .jstr url)]] TDelta.empty

/-- Python truthiness of a payload, for `if docs_payload:`. -/
def jTruthy : JVal → Bool
  | .jnull => false
  | .jbool b => b
  | .jnum n => n ≠ 0
  | .jstr s => s ≠ ""
  | .jarr xs => !xs.isEmpty
  | .jobj kvs => !kvs.isEmpty

/-- The documentation-search loop of `run_grounding_verifier`: queries in
order, de-duplicated accumulation, one search log event per processed
query, early exit once at least 3 hits are collected. -/
def docsSearchLoop (a : Actor) (disc : Option (List String)) :
    List String → List Hit → TDelta → List Hit × TDelta
  | [], hits, d => (hits, d)
  | query :: rest, hits, d =>
    let hits' :=
      match (run_search_tool a "microsoft_docs_search" query 3 disc).1 with
      | some p => if jTruthy p then merge_hits hits (extract_search_hits p) else hits
      | none => hits
    let d2 := (d.append (run_search_tool a "microsoft_docs_search" query 3 disc).2).append
      ⟨0, [], [("microsoft_docs_search", query)]⟩
    if hits'.length ≥ 3 then (hits', d2) else docsSearchLoop a disc rest hits' d2

/-- The code-sample-search loop of `run_grounding_verifier`: same shape,
early exit once at least 2 hits are collected. -/
def codeSearchLoop (a : Actor) (disc : Option (List String)) :
    List String → List Hit → TDelta → List Hit × TDelta
  | [], hits, d => (hits, d)
  | query :: rest, hits, d =>
    let hits' :=
      match (run_search_tool a "microsoft_code_sample_search" query 2 disc).1 with
      | some p => if jTruthy p then merge_hits hits (extract_search_hits p) else hits
      | none => hits
    let d2 := (d.append (run_search_tool a "microsoft_code_sample_search" query 2 disc).2).append
      ⟨0, [], [("microsoft_code_sample_search", query)]⟩
    if hits'.length ≥ 2 then (hits', d2) else codeSearchLoop a disc rest hits' d2

/-- The per-hit fetch/cache/snippet loop of `run_grounding_verifier`.
The `Citation` construction runs the pydantic validators; a validation
error propagates, uncaught in the source. -/
def buildEvidenceLoop (a : Actor) (disc : Option (List String)) :
    List Hit → Cache → TDelta → Except String (List Citation) × Cache × TDelta
  | [], cache, d => (.ok [], cache, d)
  | hit :: rest, cache, d =>
    let cached := cache_get cache hit.url
    let cachedTruthy := (cached.getD "") ≠ ""
    let step :=
      if cachedTruthy then (cached.getD "", cache, d)
      else
        let content := extract_fetched_content ((run_fetch_tool a hit.url disc).1.getD (.jobj []))
        let cache' := if content ≠ "" then cache_put cache hit.url content else cache
        (content, cache', d.append (run_fetch_tool a hit.url disc).2)
    match step with
    | (content, cache1, d1) =>
      let snippet := if content ≠ "" then to_snippet content else hit.snippet
      let snippet := if snippet = "" then "See Microsoft Learn documentation for details." else snippet
      match mkCitation hit.title hit.url (trim_words snippet 20) with
      | .error e => (.error e, cache1, d1)
      | .ok c =>
        match buildEvidenceLoop a disc rest cache1 d1 with
        | (.ok cs, cache2, d2) => (.ok (c :: cs), cache2, d2)
        | (.error e, cache2, d2) => (.error e, cache2, d2)

/-- The evidence-assembly phase of `run_grounding_verifier` for a
tool-capable actor: discovery, both search loops, merge capped at 3, then
fetch and citation construction. -/
def gatherEvidence (a : Actor) (q : Question) (diag : Option DiagnosisResult)
    (cache : Cache) : Except String (List Citation) × Cache × TDelta :=
  let queries := build_search_queries q diag
  let disc := (discover_tool_names a).1
  let docsR := docsSearchLoop a disc queries [] (discover_tool_names a).2
  let codeR := codeSearchLoop a disc (queries.take 2) [] docsR.2
  let hits := (merge_hits docsR.1 codeR.1).take 3
  buildEvidenceLoop a disc hits cache codeR.2

/-- String field extraction for pydantic validation of a JSON object. -/
def jgetStr (kvs : List (String × JVal)) (key : String) : Option String :=
  match jget kvs key with
  | some (.jstr s) => some s
  | _ => none

/-- Pydantic validation of one citation object inside a model output. -/
def validateCitationList : List JVal → Except String (List Citation)
  | [] => .ok []
  | .jobj kvs :: rest =>
    match jgetStr kvs "title", jgetStr kvs "url", jgetStr kvs "snippet" with
    | some title, some url, some snippet => do
      let c ← mkCitation title url snippet
      let cs ← validateCitationList rest
      pure (c :: cs)
    | _, _, _ => .error "ValidationError: citation fields missing or mistyped"
  | _ :: _ => .error "ValidationError: citation must be an object"

/-- Embeds `GroundedExplanation.model_validate` on an extracted JSON
value: required string fields and a non-empty list of valid citations. -/
def validateGE (v : JVal) : Except String GroundedExplanation :=
  match v with
  | .jobj kvs =>
    match jget kvs "question_id", jget kvs "explanation", jget kvs "citations" with
    | some (.jstr qid), some (.jstr ex), some (.jarr cs) =>
      if cs.isEmpty then .error "ValidationError: citations must be non-empty"
      else do
        let cits ← validateCitationList cs
        pure { question_id := qid, explanation := ex, citations := cits }
    | _, _, _ => .error "ValidationError: field missing or mistyped"
  | _ => .error "ValidationError: model output is not an object"

/-- The outcome of one grounding call: result (an error models an uncaught
exception), the cache state after the call, and the observable trace. -/
structure GroundOut where
  result : Except String GroundedExplanation
  cache : Cache
  trace : TDelta

/-- The synthesis step and epilogue of `run_grounding_verifier`: model
call plus JSON extraction plus schema validation inside one try block,
any failure recovered by the fallback; a schema-valid result is rejected
for low signal, else returned after citation caching. -/
def synthesisAndFinish (a : Actor) (q : Question) (diag : Option DiagnosisResult)
    (evidence : List Citation) (cache : Cache) (d : TDelta) : GroundOut :=
  match (do let v ← a.modelParsed; validateGE v : Except String GroundedExplanation) with
  | .error _ => ⟨.ok (fallback_ground q evidence diag), cache, d⟩
  | .ok r =>
    if is_low_signal_explanation r.explanation then
      ⟨.ok (fallback_ground q (if r.citations.isEmpty then evidence else r.citations) diag),
        cache, d⟩
    else
      let cache' := r.citations.foldl
        (fun st c => if (cache_get st c.url).getD "" = "" then cache_put st c.url c.snippet else st)
        cache
      ⟨.ok r, cache', d⟩

/-- Embeds `run_grounding_verifier`, the public entry point: offline stub
when offline is requested or no runner is given; otherwise evidence
assembly for a tool-capable runner, then synthesis with fallback. -/
def run_grounding_verifier (q : Question) (diag : Option DiagnosisResult)
    (offline : Bool) (actor : Option Actor) (cache : Cache) : GroundOut :=
  match actor with
  | none => ⟨.ok (offline_ground q diag), cache, TDelta.empty⟩
  | some a =>
    if offline then ⟨.ok (offline_ground q diag), cache, TDelta.empty⟩
    else if a.hasRunTool then
      match gatherEvidence a q diag cache with
      | (.error e, cache1, d1) => ⟨.error e, cache1, d1⟩
      | (.ok evidence, cache1, d1) => synthesisAndFinish a q diag evidence cache1 d1
    else synthesisAndFinish a q diag [] cache TDelta.empty

-- ── Concrete scenarios used by the theorems below ────────────────────

/-- The question of the repository test `test_grounding_mcp_rate_limit_fails_fast`. -/
def throttleQuestion : Question :=
  { id := "q1", domain := "Cloud Concepts"
    stem := "Which statement best describes shared responsibility in Azure?"
    choices := ["A", "B", "C", "D"], answer_key := 0
    rationale_draft := "Shared responsibility varies by cloud service model." }

/-- The diagnosis of the repository test `test_grounding_mcp_rate_limit_fails_fast`. -/
def throttleDiagnosis : DiagnosisResult :=
  { id := "q1", correct := false, misconception_id := some "SERVICE_SCOPE"
    why := "Student assumed provider owns all security tasks.", confidence := 9/10 }

/-- The `ThrottledMCPRunner` stub of the repository test: discovery lists
all three tools, every tool invocation raises a 429 rate-limit error, and
the model call returns a fixed valid payload. -/
def throttledActor : Actor :=
  { hasRunTool := true
    hasListTools := true
    listToolsResult := .ok (.jarr
      [.jstr "microsoft_docs_search", .jstr "microsoft_code_sample_search",
       .jstr "microsoft_docs_fetch"])
    runTool := fun _ _ =>
      .error "Error code: 429 - Too Many Requests (too_many_requests)"
    modelParsed := .ok (.jobj
      [("question_id", .jstr "q1"),
       ("explanation", .jstr "Use Microsoft Learn guidance for shared responsibility."),
       ("citations", .jarr [.jobj
         [("title", .jstr "Shared responsibility in the cloud"),
          ("url", .jstr "https://learn.microsoft.com/en-us/azure/security/fundamentals/shared-responsibility"),
          ("snippet", .jstr "Responsibilities vary by service type: SaaS, PaaS, IaaS.")]])]) }

/-- The end-to-end example question of the specification. -/
def sampleQuestion : Question :=
  { id := "1", domain := "Security"
    stem := "Which service handles identity in Azure?"
    choices := ["A) Storage", "B) Microsoft Entra ID"], answer_key := 1
    rationale_draft := "Identity is handled by Entra ID." }

/-- A well-formed question whose domain is absent from the per-domain
fallback table. -/
def offTableQuestion : Question :=
  { id := "q9", domain := "Quantum Computing"
    stem := "Which option applies?"
    choices := ["A) One", "B) Two"], answer_key := 0
    rationale_draft := "Because of the service model." }

/-- An actor whose documentation search returns a hit whose URL contains
the approved-domain substring but is not an https URL on that host. -/
def nonHttpsHitActor : Actor :=
  { hasRunTool := true
    hasListTools := false
    listToolsResult := .error "AttributeError"
    runTool := fun _ _ =>
      .ok (.jobj [("results", .jarr [.jobj
        [("title", .jstr "Spoofed page"),
         ("url", .jstr "http://learn.microsoft.com/en-us/spoof"),
         ("snippet", .jstr "A plausible looking snippet.")]])])
    modelParsed := .error "unused" }

/-- The parsed model output of `placeholderSynthActor`: schema-valid,
low-signal, carrying only the generic placeholder citation. -/
def placeholderModelJson : JVal :=
  .jobj
    [("question_id", .jstr "q9"),
     ("explanation", .jstr "Insufficient evidence — please narrow your query."),
     ("citations", .jarr [.jobj
       [("title", .jstr "Microsoft Learn"),
        ("url", .jstr "https://learn.microsoft.com/"),
        ("snippet", .jstr "No matching Microsoft Learn evidence retrieved yet.")]])]

/-- The validated form of `placeholderModelJson`. -/
def placeholderGE : GroundedExplanation :=
  { question_id := "q9"
    explanation := "Insufficient evidence — please narrow your query."
    citations := [build_placeholder_citation] }

/-- An actor whose search gathers one real Microsoft Learn citation but
whose model synthesis returns a schema-valid, low-signal result carrying
only the generic placeholder citation. -/
def placeholderSynthActor : Actor :=
  { hasRunTool := true
    hasListTools := false
    listToolsResult := .error "AttributeError"
    runTool := fun tool _ =>
      if tool = "microsoft_docs_search" then
        .ok (.jobj [("results", .jarr [.jobj
          [("title", .jstr "What is Microsoft Entra ID?"),
           ("url", .jstr "https://learn.microsoft.com/en-us/entra/fundamentals/whatis"),
           ("snippet", .jstr "Cloud-based identity and access management service.")]])])
      else .error "tool unavailable"
    modelParsed := .ok placeholderModelJson }

/-- The real citation gathered by `placeholderSynthActor`. -/
def entraCitation : Citation :=
  { title := "What is Microsoft Entra ID?"
    url := "https://learn.microsoft.com/en-us/entra/fundamentals/whatis"
    snippet := "Cloud-based identity and access management service." }

/-- An actor whose code-sample search returns three hits in one response
while its documentation search always raises. -/
def codeRichActor : Actor :=
  { hasRunTool := true
    hasListTools := false
    listToolsResult := .error "AttributeError"
    runTool := fun tool _ =>
      if tool = "microsoft_code_sample_search" then
        .ok (.jobj [("results", .jarr
          [.jobj [("title", .jstr "Sample A"),
                  ("url", .jstr "https://learn.microsoft.com/samples/a"),
                  ("snippet", .jstr "First code sample.")],
           .jobj [("title", .jstr "Sample B"),
                  ("url", .jstr "https://learn.microsoft.com/samples/b"),
                  ("snippet", .jstr "Second code sample.")],
           .jobj [("title", .jstr "Sample C"),
                  ("url", .jstr "https://learn.microsoft.com/samples/c"),
                  ("snippet", .jstr "Third code sample.")]])])
      else .error "throttled"
    modelParsed := .error "model unavailable" }

/-- The documentation-search phase of a grounding call on `codeRichActor`. -/
def c7DocsRun : List Hit × TDelta :=
  docsSearchLoop codeRichActor (discover_tool_names codeRichActor).1
    (build_search_queries sampleQuestion none) []
    (discover_tool_names codeRichActor).2

/-- The code-sample-search phase following `c7DocsRun`. -/
def c7CodeRun : List Hit × TDelta :=
  codeSearchLoop codeRichActor (discover_tool_names codeRichActor).1
    ((build_search_queries sampleQuestion none).take 2) [] c7DocsRun.2

/-- The single code-sample citation gathered by `codeSampleOnlyActor`. -/
def bicepCitation : Citation :=
  { title := "Deploy a Linux VM with Bicep"
    url := "https://learn.microsoft.com/en-us/azure/virtual-machines/linux/quick-create-bicep"
    snippet := "Use a Bicep template to deploy a Linux virtual machine." }

/-- The parsed model output of `codeSampleOnlyActor`. -/
def bicepModelJson : JVal :=
  .jobj
    [("question_id", .jstr "1"),
     ("explanation", .jstr "Bicep can provision Azure resources declaratively end to end."),
     ("citations", .jarr [.jobj
       [("title", .jstr "Deploy a Linux VM with Bicep"),
        ("url", .jstr "https://learn.microsoft.com/en-us/azure/virtual-machines/linux/quick-create-bicep"),
        ("snippet", .jstr "Use a Bicep template to deploy a Linux virtual machine.")]])]

/-- The validated form of `bicepModelJson`. -/
def bicepGE : GroundedExplanation :=
  { question_id := "1"
    explanation := "Bicep can provision Azure resources declaratively end to end."
    citations := [bicepCitation] }

/-- The `CodeSampleOnlyRunner` stub of the repository tests: discovery
reports only the code-sample search tool. -/
def codeSampleOnlyActor : Actor :=
  { hasRunTool := true
    hasListTools := true
    listToolsResult := .ok (.jarr [.jstr "microsoft_code_sample_search"])
    runTool := fun tool _ =>
      if tool = "microsoft_code_sample_search" then
        .ok (.jobj [("results", .jarr [.jobj
          [("title", .jstr "Deploy a Linux VM with Bicep"),
           ("url", .jstr "https://learn.microsoft.com/en-us/azure/virtual-machines/linux/quick-create-bicep"),
           ("snippet", .jstr "Use a Bicep template to deploy a Linux virtual machine.")]])])
      else .error "unexpected tool call"
    modelParsed := .ok bicepModelJson }

/-- Schema validity of a grounding-call outcome, for evaluating runs. -/
def resultValid (o : GroundOut) : Bool :=
  match o.result with
  | .ok g => groundedExplanationValid g
  | .error _ => false

-- ── Theorems ─────────────────────────────────────────────────────────

/-- Looking up the key just written returns the written content. -/
theorem cache_get_put_self (st : Cache) (u c : String) :
    cache_get (cache_put st u c) u = some c := by
  induction st with
  | nil => simp [cache_put, cache_get]
  | cons kv rest ih =>
    obtain ⟨k, v⟩ := kv
    by_cases h : k = u
    · subst h; simp [cache_put, cache_get]
    · simp [cache_put, cache_get, h, ih]

/-- Writing a different key does not disturb a lookup. -/
theorem cache_get_put_other (st : Cache) (u u' c' : String) (h : u' ≠ u) :
    cache_get (cache_put st u' c') u = cache_get st u := by
  induction st with
  | nil => simp [cache_put, cache_get, h]
  | cons kv rest ih =>
    obtain ⟨k, v⟩ := kv
    by_cases hk : k = u'
    · subst hk; simp [cache_put, cache_get, h]
    · simp [cache_put, cache_get, hk, ih]

/-- A key that was never written is absent. -/
theorem cache_get_fresh (st : Cache) (u : String) (h : ∀ v, (u, v) ∉ st) :
    cache_get st u = none := by
  induction st with
  | nil => rfl
  | cons kv rest ih =>
    obtain ⟨k, v⟩ := kv
    have hk : k ≠ u := by
      intro he
      exact h v (by simp [he])
    simp only [cache_get, hk, if_false, if_neg hk]
    exact ih fun v' hv' => h v' (List.mem_cons_of_mem _ hv')

/-- C10: a `cache_put(u, c)` followed by `cache_get(u)` with no intervening
put on `u` (even across a put on a different key) returns `c`, and a
`cache_get` on a key never written returns `None`. -/
theorem c10_cache_round_trip (st : Cache) (u c u' c' : String)
    (hne : u' ≠ u) (hfresh : ∀ v, (u, v) ∉ st) :
    cache_get (cache_put st u c) u = some c ∧
    cache_get (cache_put (cache_put st u c) u' c') u = some c ∧
    cache_get st u = none := by
  refine ⟨cache_get_put_self st u c, ?_, cache_get_fresh st u hfresh⟩
  rw [cache_get_put_other _ u u' c' hne]
  exact cache_get_put_self st u c

/-- Witness for C10 at concrete URLs and contents. -/
theorem c10_cache_round_trip_witness :
    cache_get (cache_put Cache.empty "https://learn.microsoft.com/a" "Doc body")
        "https://learn.microsoft.com/a" = some "Doc body" ∧
    cache_get (cache_put (cache_put Cache.empty "https://learn.microsoft.com/a" "Doc body")
        "https://learn.microsoft.com/b" "Other body")
        "https://learn.microsoft.com/a" = some "Doc body" ∧
    cache_get Cache.empty "https://learn.microsoft.com/a" = none :=
  c10_cache_round_trip Cache.empty "https://learn.microsoft.com/a" "Doc body"
    "https://learn.microsoft.com/b" "Other body" (by decide) (by simp [Cache.empty])

/-- C3: the claim that the tool policy fails closed on non-string input is
contradicted by the code: `is_tool_allowed` and `approval_handler` raise an
uncaught `AttributeError` on `None`, numbers, lists and maps (where the
repository test `test_tool_policy_fail_closed_on_non_string_input` expects
`False`/denied); only string inputs are denied with a result. -/
theorem c3_non_string_input_raises :
    is_tool_allowed PyVal.pynone = .error "AttributeError: object has no attribute split" ∧
    is_tool_allowed (PyVal.pyint 123) = .error "AttributeError: object has no attribute split" ∧
    is_tool_allowed (PyVal.pylist [PyVal.pystr "microsoft_docs_search"]) =
      .error "AttributeError: object has no attribute split" ∧
    is_tool_allowed (PyVal.pydict [("name", PyVal.pystr "microsoft_docs_search")]) =
      .error "AttributeError: object has no attribute split" ∧
    approval_handler PyVal.pynone = .error "AttributeError: object has no attribute split" ∧
    is_tool_allowed (PyVal.pystr "") = .ok false ∧
    is_tool_allowed (PyVal.pystr "microsoft_docs_search; rm -rf /") = .ok false ∧
    is_tool_allowed (PyVal.pystr "$(microsoft_docs_search)") = .ok false :=
  ⟨rfl, rfl, rfl, rfl, rfl, rfl, rfl, rfl⟩

/-- In the offline-stub state (offline requested, or no actor given), the
call returns the offline stub, leaves the cache unchanged and touches no
tool. -/
theorem offlineStubRun (q : Question) (diag : Option DiagnosisResult)
    (off : Bool) (a : Option Actor) (st : Cache) (h : off = true ∨ a = none) :
    run_grounding_verifier q diag off a st =
      ⟨.ok (offline_ground q diag), st, TDelta.empty⟩ := by
  rcases h with h | h
  · subst h
    cases a with
    | none => rfl
    | some a0 => rfl
  · subst h; rfl

/-- C5: two orchestrator calls with identical Question and Diagnosis in the
offline-stub state (offline flag set, or no external model caller) return
one and the same GroundedExplanation — identical explanation text and
identical citation list — regardless of actor or cache state. -/
theorem c5_offline_determinism (q : Question) (diag : Option DiagnosisResult)
    (off off' : Bool) (a a' : Option Actor) (st st' : Cache)
    (h : off = true ∨ a = none) (h' : off' = true ∨ a' = none) :
    ∃ g : GroundedExplanation,
      (run_grounding_verifier q diag off a st).result = .ok g ∧
      (run_grounding_verifier q diag off' a' st').result = .ok g := by
  refine ⟨offline_ground q diag, ?_, ?_⟩
  · rw [offlineStubRun q diag off a st h]
  · rw [offlineStubRun q diag off' a' st' h']

/-- Witness for C5: offline flag on one call, missing actor on the other,
different cache states, same output. -/
theorem c5_offline_determinism_witness :
    ∃ g : GroundedExplanation,
      (run_grounding_verifier sampleQuestion none true (some throttledActor)
        Cache.empty).result = .ok g ∧
      (run_grounding_verifier sampleQuestion none false none
        (cache_put Cache.empty "k" "v")).result = .ok g :=
  c5_offline_determinism sampleQuestion none true false (some throttledActor) none
    Cache.empty (cache_put Cache.empty "k" "v") (Or.inl rfl) (Or.inr rfl)

/-- No per-domain fallback citation has the documentation-root URL. -/
theorem domainTableNotRoot (d : String) (c : Citation)
    (h : DOMAIN_FALLBACK_CITATIONS d = some c) :
    rstripSlash c.url ≠ "https://learn.microsoft.com" := by
  unfold DOMAIN_FALLBACK_CITATIONS at h
  split_ifs at h <;>
    simp only [STUB_CITATIONS, List.get?, Option.some.injEq] at h <;>
    (subst h; decide)

/-- C6 counterexample: for a question whose domain is absent from the
table, the Fallback Policy with empty evidence yields the literal
insufficiency text, but the offline path yields the deterministic rationale
sentence instead — so the offline path is not the claimed Fallback Policy
output with its special case included. -/
theorem c6_offline_not_special_cased :
    (fallback_ground offTableQuestion [] none).explanation = insufficiencyText ∧
    (run_grounding_verifier offTableQuestion none true none Cache.empty).result =
      .ok (offline_ground offTableQuestion none) ∧
    (offline_ground offTableQuestion none).explanation ≠ insufficiencyText ∧
    (offline_ground offTableQuestion none).citations = [build_placeholder_citation] := by
  refine ⟨rfl, rfl, ?_, rfl⟩
  decide

/-- C6 amended: the offline-stub path returns the Fallback Policy output
computed from the per-domain table with empty evidence, except that the
placeholder-only insufficiency override is not applied: when the domain is
absent from the table the explanation stays the deterministic rationale
sentence over the generic placeholder citation. -/
theorem c6_offline_equals_fallback_modulo_override (q : Question)
    (diag : Option DiagnosisResult) (a : Option Actor) (st : Cache) :
    (run_grounding_verifier q diag true a st).result =
      .ok (if (DOMAIN_FALLBACK_CITATIONS q.domain).isSome
           then fallback_ground q [] diag
           else { fallback_ground q [] diag with
                    explanation := deterministic_explanation q diag }) := by
  rw [offlineStubRun q diag true a st (Or.inl rfl)]
  cases hD : DOMAIN_FALLBACK_CITATIONS q.domain with
  | some c =>
    have hroot := domainTableNotRoot q.domain c hD
    simp [offline_ground, fallback_ground, fallback_citations, hD, hroot]
  | none =>
    simp [offline_ground, fallback_ground, fallback_citations, hD]

/-- C1: the claimed throttle circuit breaker does not exist in the code.
On the scenario of the repository test
`test_grounding_mcp_rate_limit_fails_fast` — an actor whose tool invoker
always raises a 429 rate-limit error — one grounding call performs 18 tool
invocation attempts (3 argument shapes for each of 4 documentation queries
plus 3 for each of 2 code-sample queries), not the claimed 1, and a second
call on the same actor performs another 18 invocation attempts and another
discovery attempt, not the claimed 0; the fallback output itself is valid. -/
theorem c1_throttle_no_breaker :
    (run_grounding_verifier throttleQuestion (some throttleDiagnosis) false
        (some throttledActor) Cache.empty).trace.invokes.length = 18 ∧
    (run_grounding_verifier throttleQuestion (some throttleDiagnosis) false
        (some throttledActor) Cache.empty).trace.discoveries = 1 ∧
    (run_grounding_verifier throttleQuestion (some throttleDiagnosis) false
        (some throttledActor)
        (run_grounding_verifier throttleQuestion (some throttleDiagnosis) false
          (some throttledActor) Cache.empty).cache).trace.invokes.length = 18 ∧
    (run_grounding_verifier throttleQuestion (some throttleDiagnosis) false
        (some throttledActor)
        (run_grounding_verifier throttleQuestion (some throttleDiagnosis) false
          (some throttledActor) Cache.empty).cache).trace.discoveries = 1 ∧
    resultValid (run_grounding_verifier throttleQuestion (some throttleDiagnosis) false
        (some throttledActor) Cache.empty) = true := by
  refine ⟨?_, ?_, ?_, ?_, ?_⟩ <;> decide

/-- C2: the total-contract claim fails on the code: for a well-formed
question and an actor whose search returns a hit whose URL contains the
substring learn.microsoft.com but is an http URL, the pydantic `Citation`
validation raises inside evidence assembly and the exception escapes
`run_grounding_verifier` instead of a valid GroundedExplanation being
returned. -/
theorem c2_adversarial_url_escapes :
    questionWellFormed sampleQuestion = true ∧
    (run_grounding_verifier sampleQuestion none false (some nonHttpsHitActor)
        Cache.empty).result =
      .error "ValidationError: Citation URL must use learn.microsoft.com over https" :=
  ⟨by decide, rfl⟩

/-- C7 counterexample: with an actor whose code-sample search returns
three distinct Microsoft Learn hits in one response while documentation
search always raises, the accumulated code-sample hits and the final
merged selection contain 3 code-sample hits — the claimed cap of 2 on
code-sample hits does not hold. -/
theorem c7_code_hits_not_capped_at_two :
    (docsSearchLoop codeRichActor (discover_tool_names codeRichActor).1
        (build_search_queries sampleQuestion none) []
        (discover_tool_names codeRichActor).2).1 = [] ∧
    (codeSearchLoop codeRichActor (discover_tool_names codeRichActor).1
        ((build_search_queries sampleQuestion none).take 2) []
        (docsSearchLoop codeRichActor (discover_tool_names codeRichActor).1
          (build_search_queries sampleQuestion none) []
          (discover_tool_names codeRichActor).2).2).1.length = 3 ∧
    (gatherEvidence codeRichActor sampleQuestion none Cache.empty).1 =
      .ok [{ title := "Sample A", url := "https://learn.microsoft.com/samples/a"
             snippet := "First code sample." },
           { title := "Sample B", url := "https://learn.microsoft.com/samples/b"
             snippet := "Second code sample." },
           { title := "Sample C", url := "https://learn.microsoft.com/samples/c"
             snippet := "Third code sample." }] :=
  ⟨by decide, by decide, rfl⟩

/-- C4 counterexample: synthesis returns a schema-valid, low-signal result
whose only citation is the generic placeholder, while a real Microsoft
Learn citation was gathered as evidence; the final output discards the
real evidence citation, keeps only the generic placeholder, and exposes
the placeholder insufficiency explanation — both preferences the claim
requires fail. -/
theorem c4_placeholder_synthesis_discards_evidence :
    (gatherEvidence placeholderSynthActor offTableQuestion none Cache.empty).1 =
      .ok [entraCitation] ∧
    is_placeholder_citation entraCitation = false ∧
    (run_grounding_verifier offTableQuestion none false (some placeholderSynthActor)
        Cache.empty).result =
      .ok { question_id := "q9", explanation := insufficiencyText
            citations := [build_placeholder_citation] } :=
  ⟨rfl, by decide, rfl⟩

/-- Every invocation recorded by `run_mcp_tool` names the given tool. -/
theorem run_mcp_tool_invokes (a : Actor) (t : String) (args : List (String × JVal)) :
    ∀ e ∈ (run_mcp_tool a t args).2.invokes, e.tool = t := by
  intro e he
  unfold run_mcp_tool at he
  split_ifs at he
  · simp [TDelta.empty] at he
  · simp [TDelta.empty] at he
  · simp [TDelta.empty] at he
  · cases h : a.runTool t args <;> rw [h] at he <;> simp at he <;> simp [he]

/-- Invocations added by the attempt loop all name the given tool. -/
theorem tryAttempts_invokes (a : Actor) (t : String) :
    ∀ (shapes : List (List (String × JVal))) (d : TDelta),
      ∀ e ∈ (tryAttempts a t shapes d).2.invokes, e ∈ d.invokes ∨ e.tool = t := by
  intro shapes
  induction shapes with
  | nil => intro d e he; exact Or.inl he
  | cons args rest ih =>
    intro d e he
    unfold tryAttempts at he
    cases h : (run_mcp_tool a t args).1 with
    | ok v =>
      rw [h] at he
      simp only [TDelta.append, List.mem_append] at he
      rcases he with he | he
      · exact Or.inl he
      · exact Or.inr (run_mcp_tool_invokes a t args e he)
    | error err =>
      rw [h] at he
      rcases ih (d.append (run_mcp_tool a t args).2) e he with he' | he'
      · simp only [TDelta.append, List.mem_append] at he'
        rcases he' with he' | he'
        · exact Or.inl he'
        · exact Or.inr (run_mcp_tool_invokes a t args e he')
      · exact Or.inr he'

/-- Invocations of `_run_search_tool` name the given tool, and occur only
when the tool is available under the given discovery outcome. -/
theorem run_search_tool_invokes (a : Actor) (t query : String) (topK : Int)
    (disc : Option (List String)) :
    ∀ e ∈ (run_search_tool a t query topK disc).2.invokes,
      e.tool = t ∧ tool_available t disc = true := by
  intro e he
  unfold run_search_tool at he
  split_ifs at he with hav
  · simp [TDelta.empty] at he
  · rcases tryAttempts_invokes a t (searchAttemptShapes query topK) TDelta.empty e he with h | h
    · simp [TDelta.empty] at h
    · exact ⟨h, by simpa using hav⟩

/-- Invocations of `_run_fetch_tool` name the fetch tool and occur only
when it is available under the given discovery outcome. -/
theorem run_fetch_tool_invokes (a : Actor) (url : String)
    (disc : Option (List String)) :
    ∀ e ∈ (run_fetch_tool a url disc).2.invokes,
      e.tool = "microsoft_docs_fetch" ∧ tool_available "microsoft_docs_fetch" disc = true := by
  intro e he
  unfold run_fetch_tool at he
  split_ifs at he with hav
  · simp [TDelta.empty] at he
  · rcases tryAttempts_invokes a "microsoft_docs_fetch" _ TDelta.empty e he with h | h
    · simp [TDelta.empty] at h
    · exact ⟨h, by simpa using hav⟩

/-- Invocations added by the documentation-search loop name the
documentation tool and occur only when it is available. -/
theorem docsSearchLoop_invokes (a : Actor) (disc : Option (List String)) :
    ∀ (qs : List String) (hits : List Hit) (d : TDelta),
      ∀ e ∈ (docsSearchLoop a disc qs hits d).2.invokes,
        e ∈ d.invokes ∨
          (e.tool = "microsoft_docs_search" ∧
            tool_available "microsoft_docs_search" disc = true) := by
  intro qs
  induction qs with
  | nil => intro hits d e he; exact Or.inl he
  | cons query rest ih =>
    intro hits d e he
    unfold docsSearchLoop at he
    have hsplit :
        ∀ e' ∈ ((d.append (run_search_tool a "microsoft_docs_search" query 3 disc).2).append
            ⟨0, [], [("microsoft_docs_search", query)]⟩).invokes,
          e' ∈ d.invokes ∨
            (e'.tool = "microsoft_docs_search" ∧
              tool_available "microsoft_docs_search" disc = true) := by
      intro e' he'
      simp only [TDelta.append, List.mem_append, List.append_nil] at he'
      rcases he' with he' | he'
      · exact Or.inl he'
      · exact Or.inr (run_search_tool_invokes a _ query 3 disc e' he')
    dsimp only at he
    split_ifs at he
    · exact hsplit e he
    · rcases ih _ _ e he with he' | he'
      · exact hsplit e he'
      · exact Or.inr he'

/-- Invocations added by the code-sample-search loop name the code-sample
tool and occur only when it is available. -/
theorem codeSearchLoop_invokes (a : Actor) (disc : Option (List String)) :
    ∀ (qs : List String) (hits : List Hit) (d : TDelta),
      ∀ e ∈ (codeSearchLoop a disc qs hits d).2.invokes,
        e ∈ d.invokes ∨
          (e.tool = "microsoft_code_sample_search" ∧
            tool_available "microsoft_code_sample_search" disc = true) := by
  intro qs
  induction qs with
  | nil => intro hits d e he; exact Or.inl he
  | cons query rest ih =>
    intro hits d e he
    unfold codeSearchLoop at he
    have hsplit :
        ∀ e' ∈ ((d.append (run_search_tool a "microsoft_code_sample_search" query 2 disc).2).append
            ⟨0, [], [("microsoft_code_sample_search", query)]⟩).invokes,
          e' ∈ d.invokes ∨
            (e'.tool = "microsoft_code_sample_search" ∧
              tool_available "microsoft_code_sample_search" disc = true) := by
      intro e' he'
      simp only [TDelta.append, List.mem_append, List.append_nil] at he'
      rcases he' with he' | he'
      · exact Or.inl he'
      · exact Or.inr (run_search_tool_invokes a _ query 2 disc e' he')
    dsimp only at he
    split_ifs at he
    · exact hsplit e he
    · rcases ih _ _ e he with he' | he'
      · exact hsplit e he'
      · exact Or.inr he'

/-- Invocations added by the evidence-fetch loop name the fetch tool and
occur only when it is available. -/
theorem buildEvidenceLoop_invokes (a : Actor) (disc : Option (List String)) :
    ∀ (hits : List Hit) (cache : Cache) (d : TDelta),
      ∀ e ∈ (buildEvidenceLoop a disc hits cache d).2.2.invokes,
        e ∈ d.invokes ∨
          (e.tool = "microsoft_docs_fetch" ∧
            tool_available "microsoft_docs_fetch" disc = true) := by
  intro hits
  induction hits with
  | nil => intro cache d e he; exact Or.inl he
  | cons hit rest ih =>
    intro cache d e he
    have hfetch : ∀ e' ∈ (d.append (run_fetch_tool a hit.url disc).2).invokes,
        e' ∈ d.invokes ∨
          (e'.tool = "microsoft_docs_fetch" ∧
            tool_available "microsoft_docs_fetch" disc = true) := by
      intro e' he'
      simp only [TDelta.append, List.mem_append] at he'
      rcases he' with he' | he'
      · exact Or.inl he'
      · exact Or.inr (run_fetch_tool_invokes a hit.url disc e' he')
    unfold buildEvidenceLoop at he
    dsimp only at he
    by_cases hct : (cache_get cache hit.url).getD "" ≠ ""
    · simp only [if_pos hct] at he
      split at he
      · exact Or.inl he
      · split at he
        · next cs cache2 d2 heq =>
            dsimp only at he
            have hmem : e ∈ (buildEvidenceLoop a disc rest cache d).2.2.invokes := by
              rw [heq]; exact he
            exact ih cache d e hmem
        · next err cache2 d2 heq =>
            dsimp only at he
            have hmem : e ∈ (buildEvidenceLoop a disc rest cache d).2.2.invokes := by
              rw [heq]; exact he
            exact ih cache d e hmem
    · simp only [if_neg hct] at he
      split at he
      · exact hfetch e he
      · split at he
        · next cs cache2 d2 heq =>
            dsimp only at he
            have hmem := ih _ _ e (by rw [heq]; exact he)
            rcases hmem with hmem | hmem
            · exact hfetch e hmem
            · exact Or.inr hmem
        · next err cache2 d2 heq =>
            dsimp only at he
            have hmem := ih _ _ e (by rw [heq]; exact he)
            rcases hmem with hmem | hmem
            · exact hfetch e hmem
            · exact Or.inr hmem

/-- Discovery issues no tool invocations. -/
theorem discover_invokes_nil (a : Actor) :
    (discover_tool_names a).2.invokes = [] := by
  unfold discover_tool_names
  split_ifs
  · rfl
  · cases h : a.listToolsResult with
    | error e => simp [h]
    | ok v => cases v <;> simp [h]

/-- The synthesis epilogue passes the trace through unchanged. -/
theorem synthesisAndFinish_trace (a : Actor) (q : Question)
    (diag : Option DiagnosisResult) (ev : List Citation) (cache : Cache) (d : TDelta) :
    (synthesisAndFinish a q diag ev cache d).trace = d := by
  unfold synthesisAndFinish
  cases h : (do let v ← a.modelParsed; validateGE v : Except String GroundedExplanation) with
  | error e => simp [h]
  | ok r => by_cases hls : is_low_signal_explanation r.explanation <;> simp [h, hls]

theorem gatherEvidence_invokes (a : Actor) (q : Question)
    (diag : Option DiagnosisResult) (st : Cache) :
    ∀ e ∈ (gatherEvidence a q diag st).2.2.invokes,
      tool_available e.tool (discover_tool_names a).1 = true := by
  intro e he
  unfold gatherEvidence at he
  dsimp only at he
  rcases buildEvidenceLoop_invokes a _ _ _ _ e he with h1 | h1
  · rcases codeSearchLoop_invokes a _ _ _ _ e h1 with h2 | h2
    · rcases docsSearchLoop_invokes a _ _ _ _ e h2 with h3 | h3
      · rw [discover_invokes_nil] at h3
        simp at h3
      · rw [h3.1]
        exact h3.2
    · rw [h2.1]
      exact h2.2
  · rw [h1.1]
    exact h1.2

theorem run_grounding_verifier_invokes (a : Actor) (q : Question)
    (diag : Option DiagnosisResult) (st : Cache) :
    ∀ e ∈ (run_grounding_verifier q diag false (some a) st).trace.invokes,
      tool_available e.tool (discover_tool_names a).1 = true := by
  intro e he
  unfold run_grounding_verifier at he
  dsimp only at he
  rw [if_neg Bool.false_ne_true] at he
  split at he
  · split at he
    · next err cache1 d1 heq2 =>
        dsimp only at he
        have hmem : e ∈ (gatherEvidence a q diag st).2.2.invokes := by
          rw [heq2]; exact he
        exact gatherEvidence_invokes a q diag st e hmem
    · next ev cache1 d1 heq2 =>
        rw [synthesisAndFinish_trace] at he
        have hmem : e ∈ (gatherEvidence a q diag st).2.2.invokes := by
          rw [heq2]; exact he
        exact gatherEvidence_invokes a q diag st e hmem
  · rw [synthesisAndFinish_trace] at he
    simp [TDelta.empty] at he


/-- C8: when discovery succeeds with a set of names, every tool invocation
of the grounding call names a discovered tool (so a tool absent from the
discovered set — the documentation-search tool, say — is never invoked);
when the discovery method is missing, raises, or returns a non-list,
discovery yields `none`, under which every availability check passes, so
discovery failure never blocks an attempt. -/
theorem c8_discovery_gates_invocations (a : Actor) (q : Question)
    (diag : Option DiagnosisResult) (st : Cache) (S : List String) :
    ((discover_tool_names a).1 = some S →
      ∀ e ∈ (run_grounding_verifier q diag false (some a) st).trace.invokes,
        S.contains e.tool = true) ∧
    (∀ t : String, tool_available t none = true) ∧
    ((a.hasListTools = false ∨ (∃ err, a.listToolsResult = .error err) ∨
        (∀ xs, a.listToolsResult ≠ .ok (.jarr xs))) →
      (discover_tool_names a).1 = none) := by
  refine ⟨?_, fun _ => rfl, ?_⟩
  · intro hd e he
    have := run_grounding_verifier_invokes a q diag st e he
    rw [hd] at this
    simpa [tool_available] using this
  · intro h
    unfold discover_tool_names
    rcases h with h | ⟨err, h⟩ | h
    · simp [h]
    · by_cases hl : a.hasListTools <;> simp [hl, h]
    · by_cases hl : a.hasListTools
      · simp only [hl, Bool.not_true, if_neg]
        cases hres : a.listToolsResult with
        | error e => simp
        | ok v =>
          cases v with
          | jarr xs => exact absurd hres (h xs)
          | jnull => simp
          | jbool b => simp
          | jnum n => simp
          | jstr s => simp
          | jobj kvs => simp
      · simp [hl]

/-- Witness for C8: the code-sample-only runner of the repository tests
discovers exactly the code-sample tool, and every invocation of the full
grounding call is that tool — the documentation-search tool is never
invoked. -/
theorem c8_discovery_gates_invocations_witness :
    (discover_tool_names codeSampleOnlyActor).1 = some ["microsoft_code_sample_search"] ∧
    (∀ e ∈ (run_grounding_verifier sampleQuestion none false (some codeSampleOnlyActor)
        Cache.empty).trace.invokes,
      (["microsoft_code_sample_search"]).contains e.tool = true) ∧
    tool_available "microsoft_docs_search" none = true :=
  ⟨by decide,
   (c8_discovery_gates_invocations codeSampleOnlyActor sampleQuestion none Cache.empty
      ["microsoft_code_sample_search"]).1 (by decide),
   (c8_discovery_gates_invocations codeSampleOnlyActor sampleQuestion none Cache.empty
      ["microsoft_code_sample_search"]).2.1 "microsoft_docs_search"⟩

/-- An online call on a tool-capable actor whose evidence assembly
succeeds runs the synthesis step on the gathered evidence. -/
theorem run_online_with_evidence (a : Actor) (q : Question)
    (diag : Option DiagnosisResult) (st : Cache) (ev : List Citation)
    (st1 : Cache) (d1 : TDelta)
    (hrt : a.hasRunTool = true)
    (hga : gatherEvidence a q diag st = (.ok ev, st1, d1)) :
    run_grounding_verifier q diag false (some a) st =
      synthesisAndFinish a q diag ev st1 d1 := by
  unfold run_grounding_verifier
  dsimp only
  rw [if_neg Bool.false_ne_true, if_pos hrt, hga]

/-- An online call on an actor without tool capability runs the synthesis
step on empty evidence. -/
theorem run_online_no_tool (a : Actor) (q : Question)
    (diag : Option DiagnosisResult) (st : Cache)
    (hrt : a.hasRunTool = false) :
    run_grounding_verifier q diag false (some a) st =
      synthesisAndFinish a q diag [] st TDelta.empty := by
  unfold run_grounding_verifier
  dsimp only
  rw [if_neg Bool.false_ne_true, if_neg (by simp [hrt])]

/-- When the model output parses and validates, the synthesis epilogue
either rejects it for low signal — falling back on the synthesis citations
when non-empty, else on the gathered evidence — or returns it as-is after
citation caching. -/
theorem synthesisAndFinish_valid (a : Actor) (q : Question)
    (diag : Option DiagnosisResult) (ev : List Citation) (cache : Cache)
    (d : TDelta) (v : JVal) (r : GroundedExplanation)
    (hm : a.modelParsed = .ok v) (hv : validateGE v = .ok r) :
    synthesisAndFinish a q diag ev cache d =
      if is_low_signal_explanation r.explanation then
        ⟨.ok (fallback_ground q (if r.citations.isEmpty then ev else r.citations) diag),
          cache, d⟩
      else
        ⟨.ok r,
          r.citations.foldl
            (fun st c =>
              if (cache_get st c.url).getD "" = "" then cache_put st c.url c.snippet else st)
            cache,
          d⟩ := by
  unfold synthesisAndFinish
  rw [hm]
  have hbind :
      (do let v' ← (Except.ok v : Except String JVal); validateGE v' :
        Except String GroundedExplanation) = validateGE v := rfl
  rw [hbind, hv]

/-- C9: a parsed, schema-valid synthesis result is rejected — with the
Fallback Policy applied to the synthesis citations when non-empty, else
the gathered evidence — exactly when its whitespace-normalised explanation
is shorter than 30 characters or starts, case-insensitively, with the
literal insufficiency marker; otherwise it is returned as-is. -/
theorem c9_low_signal_rejection_exact (a : Actor) (q : Question)
    (diag : Option DiagnosisResult) (st : Cache) (ev : List Citation)
    (v : JVal) (r : GroundedExplanation)
    (hev : (a.hasRunTool = true ∧
              ∃ st1 d1, gatherEvidence a q diag st = (.ok ev, st1, d1)) ∨
           (a.hasRunTool = false ∧ ev = []))
    (hm : a.modelParsed = .ok v)
    (hv : validateGE v = .ok r) :
    (run_grounding_verifier q diag false (some a) st).result =
      .ok (if is_low_signal_explanation r.explanation
           then fallback_ground q (if r.citations.isEmpty then ev else r.citations) diag
           else r) ∧
    (∀ t : String, is_low_signal_explanation t =
      (decide ((pyStrip (normWs t)).data.length < 30) ||
        ("insufficient evidence".data).isPrefixOf (lowerStr (pyStrip (normWs t))).data)) := by
  constructor
  · rcases hev with ⟨hrt, st1, d1, hga⟩ | ⟨hrt, hevnil⟩
    · rw [run_online_with_evidence a q diag st ev st1 d1 hrt hga,
          synthesisAndFinish_valid a q diag ev st1 d1 v r hm hv]
      by_cases hls : is_low_signal_explanation r.explanation = true
      · rw [if_pos hls, if_pos hls]
      · rw [if_neg hls, if_neg hls]
    · subst hevnil
      rw [run_online_no_tool a q diag st hrt,
          synthesisAndFinish_valid a q diag [] st TDelta.empty v r hm hv]
      by_cases hls : is_low_signal_explanation r.explanation = true
      · rw [if_pos hls, if_pos hls]
      · rw [if_neg hls, if_neg hls]
  · intro t
    by_cases h : (pyStrip (normWs t)).data.length < 30 <;>
      simp [is_low_signal_explanation, h]

/-- Witness for C9 on the code-sample-only scenario: the synthesis result
is not low-signal and is returned as-is. -/
theorem c9_low_signal_rejection_exact_witness :
    (run_grounding_verifier sampleQuestion none false (some codeSampleOnlyActor)
        Cache.empty).result =
      .ok (if is_low_signal_explanation bicepGE.explanation
           then fallback_ground sampleQuestion
                  (if bicepGE.citations.isEmpty then [bicepCitation] else bicepGE.citations)
                  none
           else bicepGE) ∧
    (∀ t : String, is_low_signal_explanation t =
      (decide ((pyStrip (normWs t)).data.length < 30) ||
        ("insufficient evidence".data).isPrefixOf (lowerStr (pyStrip (normWs t))).data)) :=
  c9_low_signal_rejection_exact codeSampleOnlyActor sampleQuestion none Cache.empty
    [bicepCitation] bicepModelJson bicepGE
    (Or.inl ⟨rfl, _, _, rfl⟩) rfl rfl

/-- C4 amended: when a schema-valid synthesis result is rejected as
low-signal, the Fallback Policy is applied to the synthesis citations when
non-empty and to the gathered evidence only when they are empty — there is
no merge; in particular, placeholder-only synthesis citations displace the
gathered evidence, so the final citations come from the per-domain table
or the generic placeholder, with the insufficiency explanation in the
latter case. -/
theorem c4_low_signal_fallback_choice (a : Actor) (q : Question)
    (diag : Option DiagnosisResult) (st : Cache) (ev : List Citation)
    (st1 : Cache) (d1 : TDelta) (v : JVal) (r : GroundedExplanation)
    (hrt : a.hasRunTool = true)
    (hga : gatherEvidence a q diag st = (.ok ev, st1, d1))
    (hm : a.modelParsed = .ok v)
    (hv : validateGE v = .ok r)
    (hls : is_low_signal_explanation r.explanation = true) :
    (run_grounding_verifier q diag false (some a) st).result =
      .ok (fallback_ground q (if r.citations.isEmpty then ev else r.citations) diag) := by
  rw [run_online_with_evidence a q diag st ev st1 d1 hrt hga,
      synthesisAndFinish_valid a q diag ev st1 d1 v r hm hv, if_pos hls]

/-- Witness for the amended C4 on the placeholder-synthesis scenario. -/
theorem c4_low_signal_fallback_choice_witness :
    (run_grounding_verifier offTableQuestion none false (some placeholderSynthActor)
        Cache.empty).result =
      .ok (fallback_ground offTableQuestion
            (if placeholderGE.citations.isEmpty then [entraCitation]
             else placeholderGE.citations)
            none) :=
  c4_low_signal_fallback_choice placeholderSynthActor offTableQuestion none Cache.empty
    [entraCitation] _ _ placeholderModelJson placeholderGE rfl rfl rfl rfl (by decide)

/-- The gateway policy stage emits no search log events. -/
theorem run_mcp_tool_logs (a : Actor) (t : String) (args : List (String × JVal)) :
    (run_mcp_tool a t args).2.searchLogs = [] := by
  unfold run_mcp_tool
  split_ifs
  · rfl
  · rfl
  · rfl
  · cases h : a.runTool t args <;> rfl

/-- The attempt loop emits no search log events. -/
theorem tryAttempts_logs (a : Actor) (t : String) :
    ∀ (shapes : List (List (String × JVal))) (d : TDelta),
      (tryAttempts a t shapes d).2.searchLogs = d.searchLogs := by
  intro shapes
  induction shapes with
  | nil => intro d; rfl
  | cons args rest ih =>
    intro d
    unfold tryAttempts
    cases h : (run_mcp_tool a t args).1 with
    | ok v => simp [TDelta.append, run_mcp_tool_logs]
    | error err =>
      rw [ih]
      simp [TDelta.append, run_mcp_tool_logs]

/-- A single search-tool call emits no search log events (the loops emit
them, one per processed query). -/
theorem run_search_tool_logs (a : Actor) (t query : String) (topK : Int)
    (disc : Option (List String)) :
    (run_search_tool a t query topK disc).2.searchLogs = [] := by
  unfold run_search_tool
  split_ifs
  · rfl
  · rw [tryAttempts_logs]
    rfl

/-- Discovery emits no search log events. -/
theorem discover_logs_nil (a : Actor) :
    (discover_tool_names a).2.searchLogs = [] := by
  unfold discover_tool_names
  split_ifs
  · rfl
  · cases h : a.listToolsResult with
    | error e => simp [h]
    | ok v => cases v <;> simp [h]

/-- Search log events persist through the documentation-search loop. -/
theorem docsSearchLoop_logs_mono (a : Actor) (disc : Option (List String)) :
    ∀ (qs : List String) (hits : List Hit) (d : TDelta) (ev : String × String),
      ev ∈ d.searchLogs → ev ∈ (docsSearchLoop a disc qs hits d).2.searchLogs := by
  intro qs
  induction qs with
  | nil => intro hits d ev h; exact h
  | cons query rest ih =>
    intro hits d ev h
    unfold docsSearchLoop
    dsimp only
    have hmem : ev ∈ ((d.append
        (run_search_tool a "microsoft_docs_search" query 3 disc).2).append
        ⟨0, [], [("microsoft_docs_search", query)]⟩).searchLogs := by
      simp only [TDelta.append, List.mem_append]
      exact Or.inl (Or.inl h)
    split_ifs
    · exact hmem
    · exact ih _ _ ev hmem

/-- Every search log event added by the documentation-search loop names
the documentation tool and one of its queries. -/
theorem docsSearchLoop_logs_new (a : Actor) (disc : Option (List String)) :
    ∀ (qs : List String) (hits : List Hit) (d : TDelta) (ev : String × String),
      ev ∈ (docsSearchLoop a disc qs hits d).2.searchLogs →
        ev ∈ d.searchLogs ∨ (ev.1 = "microsoft_docs_search" ∧ ev.2 ∈ qs) := by
  intro qs
  induction qs with
  | nil => intro hits d ev h; exact Or.inl h
  | cons query rest ih =>
    intro hits d ev h
    unfold docsSearchLoop at h
    dsimp only at h
    have hstep : ∀ ev' ∈ ((d.append
        (run_search_tool a "microsoft_docs_search" query 3 disc).2).append
        ⟨0, [], [("microsoft_docs_search", query)]⟩).searchLogs,
        ev' ∈ d.searchLogs ∨
          (ev'.1 = "microsoft_docs_search" ∧ ev'.2 ∈ query :: rest) := by
      intro ev' hev'
      simp only [TDelta.append, List.mem_append, run_search_tool_logs,
        List.append_nil, List.mem_singleton] at hev'
      rcases hev' with hev' | hev'
      · exact Or.inl hev'
      · subst hev'
        exact Or.inr ⟨rfl, by simp⟩
    split_ifs at h
    · exact hstep ev h
    · rcases ih _ _ ev h with h' | h'
      · exact hstep ev h'
      · exact Or.inr ⟨h'.1, List.mem_cons_of_mem _ h'.2⟩

/-- Every search log event added by the code-sample-search loop names the
code-sample tool and one of its queries. -/
theorem codeSearchLoop_logs_new (a : Actor) (disc : Option (List String)) :
    ∀ (qs : List String) (hits : List Hit) (d : TDelta) (ev : String × String),
      ev ∈ (codeSearchLoop a disc qs hits d).2.searchLogs →
        ev ∈ d.searchLogs ∨ (ev.1 = "microsoft_code_sample_search" ∧ ev.2 ∈ qs) := by
  intro qs
  induction qs with
  | nil => intro hits d ev h; exact Or.inl h
  | cons query rest ih =>
    intro hits d ev h
    unfold codeSearchLoop at h
    dsimp only at h
    have hstep : ∀ ev' ∈ ((d.append
        (run_search_tool a "microsoft_code_sample_search" query 2 disc).2).append
        ⟨0, [], [("microsoft_code_sample_search", query)]⟩).searchLogs,
        ev' ∈ d.searchLogs ∨
          (ev'.1 = "microsoft_code_sample_search" ∧ ev'.2 ∈ query :: rest) := by
      intro ev' hev'
      simp only [TDelta.append, List.mem_append, run_search_tool_logs,
        List.append_nil, List.mem_singleton] at hev'
      rcases hev' with hev' | hev'
      · exact Or.inl hev'
      · subst hev'
        exact Or.inr ⟨rfl, by simp⟩
    split_ifs at h
    · exact hstep ev h
    · rcases ih _ _ ev h with h' | h'
      · exact hstep ev h'
      · exact Or.inr ⟨h'.1, List.mem_cons_of_mem _ h'.2⟩

/-- If the documentation-search loop ends with fewer than 3 hits, it
processed — and logged — every query: the loop stops early only once at
least 3 de-duplicated hits are collected. -/
theorem docsSearchLoop_exhausts (a : Actor) (disc : Option (List String)) :
    ∀ (qs : List String) (hits : List Hit) (d : TDelta),
      (docsSearchLoop a disc qs hits d).1.length < 3 →
      ∀ qy ∈ qs,
        ("microsoft_docs_search", qy) ∈ (docsSearchLoop a disc qs hits d).2.searchLogs := by
  intro qs
  induction qs with
  | nil => intro hits d hlen qy hqy; simp at hqy
  | cons query rest ih =>
    intro hits d hlen qy hqy
    unfold docsSearchLoop at hlen ⊢
    dsimp only at hlen ⊢
    split_ifs at hlen ⊢ with hbr
    · dsimp only at hlen
      exact absurd hbr (by omega)
    · rcases List.mem_cons.mp hqy with rfl | hqy'
      · apply docsSearchLoop_logs_mono
        simp [TDelta.append]
      · exact ih _ _ hlen qy hqy'

/-- The hit-merge keeps a sublist of its input. -/
theorem mergeHitsLoop_sublist : ∀ (xs : List Hit) (seen : List String),
    (mergeHitsLoop xs seen).Sublist xs := by
  intro xs
  induction xs with
  | nil => intro seen; simp [mergeHitsLoop]
  | cons hit rest ih =>
    intro seen
    unfold mergeHitsLoop
    split_ifs
    · exact (ih seen).cons hit
    · exact (ih (hit.url :: seen)).cons₂ hit

/-- The hit-merge output has pairwise-distinct URLs, none of them in the
seen set. -/
theorem mergeHitsLoop_nodup : ∀ (xs : List Hit) (seen : List String),
    ((mergeHitsLoop xs seen).map Hit.url).Nodup ∧
    (∀ h ∈ mergeHitsLoop xs seen, h.url ∉ seen) := by
  intro xs
  induction xs with
  | nil => intro seen; exact ⟨List.nodup_nil, by simp [mergeHitsLoop]⟩
  | cons hit rest ih =>
    intro seen
    unfold mergeHitsLoop
    split_ifs with hc
    · exact ih seen
    · simp only [Bool.or_eq_true, not_or] at hc
      obtain ⟨hcu, hcs⟩ := hc
      obtain ⟨hnd, hinv⟩ := ih (hit.url :: seen)
      refine ⟨?_, ?_⟩
      · simp only [List.map_cons, List.nodup_cons]
        refine ⟨?_, hnd⟩
        intro hmem
        obtain ⟨h', hh', hurl⟩ := List.mem_map.mp hmem
        have := hinv h' hh'
        rw [hurl] at this
        exact this (List.mem_cons_self _ _)
      · intro h' hh'
        rcases List.mem_cons.mp hh' with rfl | hh''
        · intro hmem
          exact hcs (by simpa [List.contains_iff_exists_mem_beq] using
            List.elem_eq_true_of_mem hmem)
        · have := hinv h' hh''
          intro hmem
          exact this (List.mem_cons_of_mem _ hmem)

/-- The merge of two hit groups splits as a de-duplicated sublist of the
first followed by a de-duplicated sublist of the second: first-group hits
always precede second-group hits. -/
theorem mergeHitsLoop_append_split : ∀ (A B : List Hit) (seen : List String),
    ∃ ds cs, mergeHitsLoop (A ++ B) seen = ds ++ cs ∧
      ds.Sublist A ∧ cs.Sublist B := by
  intro A
  induction A with
  | nil =>
    intro B seen
    exact ⟨[], mergeHitsLoop B seen, rfl, List.nil_sublist _, mergeHitsLoop_sublist B seen⟩
  | cons hit rest ih =>
    intro B seen
    rw [List.cons_append]
    unfold mergeHitsLoop
    split_ifs with hc
    · obtain ⟨ds, cs, heq, hds, hcs⟩ := ih B seen
      exact ⟨ds, cs, heq, hds.cons hit, hcs⟩
    · obtain ⟨ds, cs, heq, hds, hcs⟩ := ih B (hit.url :: seen)
      refine ⟨hit :: ds, cs, ?_, hds.cons₂ hit, hcs⟩
      rw [heq, List.cons_append]

/-- C7 amended: the merged selection is capped at 3, de-duplicated by URL,
and places documentation hits before code-sample hits; the code-sample
tool is issued against at most the first 2 queries; and the documentation
loop stops early only once at least 3 hits are collected — but the
accumulated code-sample hits are not truncated to 2, so a single response
may contribute more than 2 of the selected hits. -/
theorem c7_search_strategy_amended (a : Actor) (q : Question)
    (diag : Option DiagnosisResult)
    (docsHits codeHits : List Hit) (d1 d2 : TDelta)
    (hdocs : docsSearchLoop a (discover_tool_names a).1 (build_search_queries q diag) []
        (discover_tool_names a).2 = (docsHits, d1))
    (hcode : codeSearchLoop a (discover_tool_names a).1
        ((build_search_queries q diag).take 2) [] d1 = (codeHits, d2)) :
    ((merge_hits docsHits codeHits).take 3).length ≤ 3 ∧
    (((merge_hits docsHits codeHits).take 3).map Hit.url).Nodup ∧
    (∃ ds cs, (merge_hits docsHits codeHits).take 3 = ds ++ cs ∧
      ds.Sublist docsHits ∧ cs.Sublist codeHits) ∧
    (∀ ev ∈ d2.searchLogs, ev.1 = "microsoft_code_sample_search" →
      ev.2 ∈ (build_search_queries q diag).take 2) ∧
    (docsHits.length < 3 →
      ∀ qy ∈ build_search_queries q diag, ("microsoft_docs_search", qy) ∈ d1.searchLogs) := by
  refine ⟨List.length_take_le _ _, ?_, ?_, ?_, ?_⟩
  · have hnd := (mergeHitsLoop_nodup (docsHits ++ codeHits) []).1
    unfold merge_hits
    rw [List.map_take]
    exact List.Nodup.sublist (List.take_sublist _ _) hnd
  · obtain ⟨ds, cs, heq, hds, hcs⟩ := mergeHitsLoop_append_split docsHits codeHits []
    refine ⟨ds.take 3, cs.take (3 - ds.length), ?_, ?_, ?_⟩
    · show (merge_hits docsHits codeHits).take 3 = _
      unfold merge_hits
      rw [heq, List.take_append_eq_append_take]
    · exact (List.take_sublist _ _).trans hds
    · exact (List.take_sublist _ _).trans hcs
  · intro ev hev hname
    have h2 : ev ∈ (codeSearchLoop a (discover_tool_names a).1
        ((build_search_queries q diag).take 2) [] d1).2.searchLogs := by
      rw [hcode]; exact hev
    rcases codeSearchLoop_logs_new a _ _ _ _ ev h2 with h3 | h3
    · have h4 : ev ∈ (docsSearchLoop a (discover_tool_names a).1
          (build_search_queries q diag) [] (discover_tool_names a).2).2.searchLogs := by
        rw [hdocs]; exact h3
      rcases docsSearchLoop_logs_new a _ _ _ _ ev h4 with h5 | h5
      · rw [discover_logs_nil] at h5
        simp at h5
      · rw [hname] at h5
        simp at h5
    · exact h3.2
  · intro hlt qy hqy
    have h1 : (docsSearchLoop a (discover_tool_names a).1 (build_search_queries q diag) []
        (discover_tool_names a).2).1.length < 3 := by
      rw [hdocs]; exact hlt
    have := docsSearchLoop_exhausts a _ _ _ _ h1 qy hqy
    rw [hdocs] at this
    exact this

/-- Witness for the amended C7 on the code-rich scenario. -/
theorem c7_search_strategy_amended_witness :
    ((merge_hits c7DocsRun.1 c7CodeRun.1).take 3).length ≤ 3 ∧
    (((merge_hits c7DocsRun.1 c7CodeRun.1).take 3).map Hit.url).Nodup ∧
    (∃ ds cs, (merge_hits c7DocsRun.1 c7CodeRun.1).take 3 = ds ++ cs ∧
      ds.Sublist c7DocsRun.1 ∧ cs.Sublist c7CodeRun.1) ∧
    (∀ ev ∈ c7CodeRun.2.searchLogs, ev.1 = "microsoft_code_sample_search" →
      ev.2 ∈ (build_search_queries sampleQuestion none).take 2) ∧
    (c7DocsRun.1.length < 3 →
      ∀ qy ∈ build_search_queries sampleQuestion none,
        ("microsoft_docs_search", qy) ∈ c7DocsRun.2.searchLogs) :=
  c7_search_strategy_amended codeRichActor sampleQuestion none
    c7DocsRun.1 c7CodeRun.1 c7DocsRun.2 c7CodeRun.2 rfl rfl

end Grounding
